import Mathlib

/-!
Shallow embedding of the reelser-bot repository core: the authorization
service (internal/services/auth/service.go), the download service's URL
router and temp-file cleanup (internal/services/downloader), and the
Telegram handler's bounded download queue, worker pool and size policy
(internal/transport/telegram).  Pure Go functions become Lean functions;
the stateful auth service becomes explicit state passing; the filesystem
and the Telegram transport become explicit parameters/result traces.
-/

namespace ReelserBot

/-! ## Decimal integer formatting and parsing

Models `fmt.Fprintf(w, "%d\n", userID)` (the allow-list append format) and
`strconv.ParseInt(line, 10, 64)` (the allow-list load parser). -/

/-- Decimal digit value of a character, as Go's parser computes it
(`c - '0'`). -/
def digitVal (c : Char) : Nat := c.toNat - 48

/-- `true` iff `c` is an ASCII decimal digit (`'0' <= c <= '9'`). -/
def goIsDigit (c : Char) : Bool := 48 ≤ c.toNat && c.toNat ≤ 57

/-- The ASCII character of a decimal digit. -/
def digitChar (d : Nat) : Char := Char.ofNat (48 + d)

/-- Decimal digits, least significant first, with explicit fuel so the
recursion is structural (and hence kernel-computable). -/
def digitsRevAux : Nat → Nat → List Nat
  | _, 0 => []
  | 0, _ + 1 => []
  | fuel + 1, n + 1 => (n + 1) % 10 :: digitsRevAux fuel ((n + 1) / 10)

/-- Decimal digits of `n`, least significant first; empty for `0`. -/
def digitsRev (n : Nat) : List Nat := digitsRevAux n n

/-- Value of a most-significant-first digit list. -/
def natVal (l : List Nat) : Nat := l.foldl (fun a d => a * 10 + d) 0

/-- Decimal representation of a natural number, as a character list. -/
def natReprL (n : Nat) : List Char :=
  if n = 0 then ['0'] else ((digitsRev n).reverse).map digitChar

/-- Decimal representation of an integer, as Go's `fmt` verb `%d` prints
a (signed) integer value. -/
def intReprL (i : Int) : List Char :=
  if i < 0 then '-' :: natReprL i.natAbs else natReprL i.natAbs

/-- String form of `intReprL`: the exact line content that
`appendAllowedUserToFile` writes for a user id (without the trailing
newline, since the model keeps the file as a list of lines). -/
def intRepr (i : Int) : String := String.mk (intReprL i)

/-- Sign handling of `strconv.ParseInt`: an optional leading `'+'` or
`'-'` followed by the digit characters. -/
def splitSign (l : List Char) : Int × List Char :=
  match l with
  | [] => (1, [])
  | c :: rest =>
    if c = '+' then (1, rest)
    else if c = '-' then (-1, rest)
    else (1, c :: rest)

/-- Value of a most-significant-first digit-character list, accumulated
the way Go's `strconv` does. -/
def digitsToNat (l : List Char) : Nat :=
  l.foldl (fun acc c => acc * 10 + digitVal c) 0

/-- Model of `strconv.ParseInt(s, 10, 64)` on the character list of `s`:
optional sign, at least one digit, all characters digits, and the signed
value must fit in a signed 64-bit integer; any violation is an error
(`none`). -/
def goParseIntL (l : List Char) : Option Int :=
  let sd := splitSign l
  if sd.2.isEmpty then none
  else if !(sd.2.all goIsDigit) then none
  else
    let v : Int := sd.1 * (digitsToNat sd.2 : Int)
    if v < -(2 ^ 63) ∨ v > 2 ^ 63 - 1 then none else some v

/-- Model of `strconv.ParseInt(s, 10, 64)`. -/
def goParseInt (s : String) : Option Int := goParseIntL s.toList

/-! ## Whitespace trimming

Models `strings.TrimSpace` on the characters the repository's data can
contain (ASCII whitespace; the allow-list lines never contain the larger
Unicode space set). -/

/-- Go's `unicode.IsSpace` restricted to the ASCII range. -/
def isSpaceGo (c : Char) : Bool :=
  c = ' ' || c = '\t' || c = '\n' || c = '\x0b' || c = '\x0c' || c = '\r'

/-- Model of `strings.TrimSpace` on a character list: drop whitespace from
both ends. -/
def goTrimSpaceL (l : List Char) : List Char :=
  ((l.dropWhile isSpaceGo).reverse.dropWhile isSpaceGo).reverse

/-- `true` iff `pre` is a prefix of `l`; models `strings.HasPrefix`. -/
def startsWithL (l pre : List Char) : Bool :=
  match l, pre with
  | _, [] => true
  | [], _ :: _ => false
  | a :: as, b :: bs => a == b && startsWithL as bs

/-! ## Authorization service (internal/services/auth/service.go)

The service state is `{enabled, validTokens, allowedUsers,
allowedUsersFile}`.  The persisted allow-list file is modelled explicitly
as the list of its lines (`none` when no persistence file is configured);
`os` writes always succeed in the model (a write failure is non-fatal in
the code: the in-memory approval still stands). -/

structure AuthState where
  enabled : Bool
  validTokens : List String
  allowedUsers : List Int
  fileLines : Option (List String)
deriving DecidableEq

/-- One line of `loadAllowedUsersFromFile`'s scanner loop: trim the line,
skip it when blank or a `#` comment, otherwise `ParseInt` it (skipping the
line with a warning on error). -/
def parseLine (line : String) : Option Int :=
  let t := goTrimSpaceL line.toList
  if t = [] then none
  else if startsWithL t ['#'] then none
  else goParseIntL t

/-- Set-insert into the allowed-users map (`allowedUsers[id] = struct{}{}`). -/
def insertUser (users : List Int) (uid : Int) : List Int :=
  if users.contains uid then users else users ++ [uid]

/-- Model of `loadAllowedUsersFromFile`: every well-formed line is
inserted into the (initially empty) approved set; malformed lines are
skipped.  The load is total: it never fails. -/
def loadAllowedUsers (lines : List String) : List Int :=
  lines.foldl
    (fun acc line =>
      match parseLine line with
      | some uid => insertUser acc uid
      | none => acc)
    []

/-- Model of `auth.NewService`: record the configuration and recover the
approved set from the persisted allow-list when one is configured. -/
def mkService (enabled : Bool) (tokens : List String)
    (fileLines : Option (List String)) : AuthState :=
  { enabled := enabled
    validTokens := tokens
    allowedUsers := match fileLines with
      | none => []
      | some lines => loadAllowedUsers lines
    fileLines := fileLines }

/-- Model of `Service.IsAuthorized`: when authorization is disabled every
check passes; otherwise membership in the approved set. -/
def isAuthorized (s : AuthState) (uid : Int) : Bool :=
  if !s.enabled then true else s.allowedUsers.contains uid

/-- Model of `Service.TryAuthorize`: pass-through when disabled; reject an
invalid token without mutating state; re-approving an approved user is a
no-op; otherwise insert the user and append its decimal id as one line of
the configured allow-list file. -/
def tryAuthorize (s : AuthState) (uid : Int) (tok : String) :
    Bool × AuthState :=
  if !s.enabled then (true, s)
  else if !s.validTokens.contains tok then (false, s)
  else if s.allowedUsers.contains uid then (true, s)
  else
    (true,
      { s with
        allowedUsers := s.allowedUsers ++ [uid]
        fileLines := Option.map (fun ls => ls ++ [intRepr uid]) s.fileLines })

/-! ## URL router (internal/services/downloader, getDownloader)

`strings.ToLower` is modelled on the ASCII range (the domain markers are
ASCII); `strings.Contains` is a substring test. -/

/-- ASCII lowering of one character, as `strings.ToLower` maps ASCII. -/
def goLowerChar (c : Char) : Char :=
  if 65 ≤ c.toNat ∧ c.toNat ≤ 90 then Char.ofNat (c.toNat + 32) else c

/-- Model of `strings.ToLower` (ASCII range). -/
def goToLower (s : String) : String := String.mk (s.toList.map goLowerChar)

/-- `true` iff `sub` occurs as a contiguous substring of `l`. -/
def containsL (l sub : List Char) : Bool :=
  match l with
  | [] => startsWithL [] sub
  | _ :: rest => startsWithL l sub || containsL rest sub

/-- Model of `strings.Contains s sub`. -/
def goContains (s sub : String) : Bool := containsL s.toList sub.toList

/-- Modelled from the spec: the `yt` package's source file is not under
src/ (only its caller `getDownloader` is).  The spec and the handler's
help text give YouTube's domain markers as `youtube.com` and `youtu.be`,
matched by substring like the other platforms. -/
def ytIsValidURL (url : String) : Bool :=
  goContains url "youtube.com" || goContains url "youtu.be"

/-- Model of `tiktok.IsValidURL`: substring match on `tiktok.com`. -/
def tiktokIsValidURL (url : String) : Bool := goContains url "tiktok.com"

/-- Model of `instagram.IsValidURL`: substring match on `instagram.com`. -/
def instagramIsValidURL (url : String) : Bool := goContains url "instagram.com"

inductive Platform where
  | youtube
  | tiktok
  | instagram
deriving DecidableEq

/-- Model of `Service.getDownloader`: lower-case the URL, then try the
backends in the fixed order YouTube, TikTok, Instagram; first match wins;
no match yields the `unknown` tag and no downloader (`none`). -/
def getDownloader (url : String) : String × Option Platform :=
  let urlLower := goToLower url
  if ytIsValidURL urlLower then ("youtube", some Platform.youtube)
  else if tiktokIsValidURL urlLower then ("tiktok", some Platform.tiktok)
  else if instagramIsValidURL urlLower then ("instagram", some Platform.instagram)
  else ("unknown", none)

/-! ## Temp-file cleanup (internal/services/downloader, Cleanup)

`filepath.Abs`/`filepath.Clean` are modelled for Unix paths: `Abs`
cleans an already-absolute path and otherwise joins it onto the working
directory and cleans the result. -/

/-- Split a character list on `'/'` (auxiliary accumulator holds the
current component reversed). -/
def splitSlashAux (cur : List Char) : List Char → List (List Char)
  | [] => [cur.reverse]
  | '/' :: rest => cur.reverse :: splitSlashAux [] rest
  | c :: rest => splitSlashAux (c :: cur) rest

/-- Path components of a character list, split on `'/'`. -/
def splitSlash (l : List Char) : List (List Char) := splitSlashAux [] l

/-- The component processing of `filepath.Clean`: drop empty and `.`
components; `..` pops the previous component, except at the root (where
it is dropped) and at the front of a relative path (where it is kept). -/
def cleanStack (rooted : Bool) (stack : List (List Char)) :
    List (List Char) → List (List Char)
  | [] => stack.reverse
  | c :: rest =>
    if c = [] || c = ['.'] then cleanStack rooted stack rest
    else if c = ['.', '.'] then
      match stack with
      | [] =>
        if rooted then cleanStack rooted [] rest
        else cleanStack rooted [['.', '.']] rest
      | top :: tail =>
        if top = ['.', '.'] then cleanStack rooted (c :: stack) rest
        else cleanStack rooted tail rest
    else cleanStack rooted (c :: stack) rest

/-- Join components with `'/'`. -/
def joinSlash : List (List Char) → List Char
  | [] => []
  | [c] => c
  | c :: d :: rest => c ++ '/' :: joinSlash (d :: rest)

/-- Model of `filepath.Clean` for Unix paths. -/
def goCleanL (l : List Char) : List Char :=
  match l with
  | [] => ['.']
  | c :: _ =>
    let rooted := c = '/'
    let body := joinSlash (cleanStack rooted [] (splitSlash l))
    if rooted then
      if body = [] then ['/'] else '/' :: body
    else
      if body = [] then ['.'] else body

/-- Model of `filepath.Clean`. -/
def goClean (s : String) : String := String.mk (goCleanL s.toList)

/-- Model of `filepath.IsAbs` for Unix paths. -/
def goIsAbs (s : String) : Bool := startsWithL s.toList ['/']

/-- Model of `filepath.Abs` given the process working directory `cwd`. -/
def goAbs (cwd p : String) : String :=
  if goIsAbs p then goClean p else goClean (cwd ++ "/" ++ p)

/-- Model of `strings.HasPrefix`. -/
def goHasPrefix (s pre : String) : Bool := startsWithL s.toList pre.toList

inductive CleanupResult where
  /-- The empty path: `Cleanup` returns `nil` without touching the
  filesystem. -/
  | nothingToDo
  /-- The prefix check failed: `Cleanup` returns the
  `file path is outside temp directory` error and removes nothing. -/
  | rejectedOutside
  /-- The prefix check passed: `Cleanup` calls `os.Remove` on the given
  path. -/
  | removed (path : String)
deriving DecidableEq

/-- Model of `Service.Cleanup`: skip the empty path; make both the temp
directory and the argument absolute; reject when the absolute file path
does not have the absolute temp directory as a *string* prefix; otherwise
remove the file. -/
def cleanup (cwd tempDir filePath : String) : CleanupResult :=
  if filePath = "" then CleanupResult.nothingToDo
  else
    let absTempDir := goAbs cwd tempDir
    let absFilePath := goAbs cwd filePath
    if !goHasPrefix absFilePath absTempDir then CleanupResult.rejectedOutside
    else CleanupResult.removed filePath

/-- Follows the claim's words, for comparison with `cleanup`: a path is a
descendant of the configured temp directory iff its absolute form lies
strictly inside the absolute temp directory, i.e. starts with the
absolute temp directory followed by the path separator. -/
def isDescendantOfTempDir (cwd tempDir filePath : String) : Bool :=
  goHasPrefix (goAbs cwd filePath) (goAbs cwd tempDir ++ "/")

/-! ## Telegram handler (internal/transport/telegram)

Only the orchestration state the claims are about is embedded: the size
policy, the bounded download queue with its non-blocking admission, the
worker loop, and the constructor arithmetic.  The Telegram API itself is
an external collaborator: its calls appear as boolean parameters (did the
send succeed) and as fields of the result traces (was a call made). -/

/-- The handler fields involved in the claims.  `maxVideoSize` is in
bytes (`int64(maxVideoSizeMB) * 1024 * 1024`). -/
structure Handler where
  maxVideoSize : Int
  workerCount : Int
  queueSizeLimit : Int
  /-- Capacity of the channel created by
  `make(chan *downloadRequest, queueSize)`. -/
  downloadQueueCapacity : Int
deriving DecidableEq

/-- Wrap-around of Go's signed 64-bit integer arithmetic. -/
def int64Wrap (i : Int) : Int := (i + 2 ^ 63) % 2 ^ 64 - 2 ^ 63

/-- Model of `NewHandler`: a non-positive worker count is replaced by 1;
the queue size is twice the worker count; the size ceiling is converted
from megabytes to bytes. -/
def NewHandler (maxVideoSizeMB workerCount : Int) : Handler :=
  let wc := if workerCount ≤ 0 then 1 else workerCount
  let queueSize := wc * 2
  { maxVideoSize := int64Wrap (maxVideoSizeMB * 1024 * 1024)
    workerCount := wc
    queueSizeLimit := queueSize
    downloadQueueCapacity := queueSize }

/-- The hard Telegram bot-API upload limit, 50 MB. -/
def telegramLimit : Int := 50 * 1024 * 1024

/-- Model of `Handler.maxAllowedFileSize`: the configured ceiling clamped
to the Telegram limit, which wins when the configured value is
non-positive or larger. -/
def maxAllowedFileSize (h : Handler) : Int :=
  if h.maxVideoSize ≤ 0 ∨ h.maxVideoSize > telegramLimit then telegramLimit
  else h.maxVideoSize

inductive ProcOutcome where
  | downloadFailed
  | statFailed
  /-- The distinct size-violation failure: the user is told the video
  exceeds the Telegram limit. -/
  | sizeViolation
  | sendFailed
  | delivered
deriving DecidableEq

/-- Observable trace of one `processDownload` call. -/
structure ProcTrace where
  outcome : ProcOutcome
  /-- Whether `sendVideo` was invoked, i.e. the artifact was handed to
  the transport. -/
  videoSentToTransport : Bool
  /-- Whether the deferred `Cleanup` of the artifact was scheduled. -/
  cleanupScheduled : Bool
  /-- Whether the deferred `req.cancel()` ran (always). -/
  cancelCalled : Bool
deriving DecidableEq

/-- Model of `Handler.processDownload`: download, schedule cleanup, stat,
compare against `maxAllowedFileSize`, and only then hand the artifact to
the transport; an oversized artifact ends the request with the distinct
size-violation message and is never sent.  The downloader and the stat
are external effects, passed in as their results (`download` is
`some path` on success, `fileSize` is `some size` when the stat
succeeds); `sendOk` is whether the transport send succeeds. -/
def processDownload (h : Handler) (download : Option String)
    (fileSize : Option Int) (sendOk : Bool) : ProcTrace :=
  match download with
  | none => ⟨ProcOutcome.downloadFailed, false, false, true⟩
  | some _ =>
    match fileSize with
    | none => ⟨ProcOutcome.statFailed, false, true, true⟩
    | some size =>
      if size > maxAllowedFileSize h then
        ⟨ProcOutcome.sizeViolation, false, true, true⟩
      else if sendOk then ⟨ProcOutcome.delivered, true, true, true⟩
      else ⟨ProcOutcome.sendFailed, true, true, true⟩

/-! ## Bounded download queue (enqueueDownload and its caller) -/

/-- The bounded download channel: its pending buffer and its capacity. -/
structure QueueState where
  pending : List Nat
  cap : Nat
deriving DecidableEq

/-- Model of `Handler.enqueueDownload`: the non-blocking `select` send —
the request is appended when the buffer has spare capacity, otherwise the
`default` branch returns `false` at once, leaving the queue unchanged. -/
def enqueueDownload (q : QueueState) (r : Nat) : Bool × QueueState :=
  if q.pending.length < q.cap then (true, ⟨q.pending ++ [r], q.cap⟩)
  else (false, q)

/-- Observable trace of the submission tail of `handleTextMessage` (and
of `handleChosenInlineResult`, which is identical). -/
structure SubmitTrace where
  accepted : Bool
  queueAfter : QueueState
  /-- Whether the request's `cancel()` was called (releasing the
  cancellation scope). -/
  cancelCalled : Bool
  /-- Whether `handleQueueOverflow` notified the user. -/
  overflowNotified : Bool
deriving DecidableEq

/-- Model of the caller of `enqueueDownload`: on rejection the caller
cancels the request's context and runs `handleQueueOverflow`. -/
def submitDownload (q : QueueState) (r : Nat) : SubmitTrace :=
  let res := enqueueDownload q r
  if res.1 then ⟨true, res.2, false, false⟩
  else ⟨false, res.2, true, true⟩

/-! ## Download worker loop (startWorkers) -/

inductive ReqBehavior where
  /-- `processDownload` returns normally. -/
  | normal
  /-- `processDownload` panics. -/
  | panics
deriving DecidableEq

/-- Observable result of one worker goroutine run over a finite queue
content. -/
structure WorkerRun where
  /-- Requests processed to completion. -/
  completed : Nat
  /-- Whether the deferred `recover` fired and logged a panic. -/
  panicLogged : Bool
  /-- Whether the goroutine returned while requests were still pending
  (instead of looping back to the channel receive). -/
  exitedEarly : Bool
deriving DecidableEq

/-- Model of the download-worker goroutine body in `startWorkers`: the
deferred `recover` sits at the goroutine boundary, *outside* the
`for req := range h.downloadQueue` loop, so a panic inside
`processDownload` unwinds the loop, is recovered and logged once, and the
goroutine returns — remaining requests are never pulled. -/
def runWorker : List ReqBehavior → WorkerRun
  | [] => ⟨0, false, false⟩
  | ReqBehavior.normal :: rest =>
    let r := runWorker rest
    ⟨r.completed + 1, r.panicLogged, r.exitedEarly⟩
  | ReqBehavior.panics :: _ => ⟨0, true, true⟩

/-- Follows the claim's words, for comparison with `runWorker`: the panic
is caught at the per-request boundary, converted into a logged failure,
and the worker resumes pulling the next request. -/
def runWorkerPerRequestBoundary : List ReqBehavior → WorkerRun
  | [] => ⟨0, false, false⟩
  | ReqBehavior.normal :: rest =>
    let r := runWorkerPerRequestBoundary rest
    ⟨r.completed + 1, r.panicLogged, r.exitedEarly⟩
  | ReqBehavior.panics :: rest =>
    let r := runWorkerPerRequestBoundary rest
    ⟨r.completed, true, r.exitedEarly⟩

/-! ## Update dispatcher (internal/transport/telegram/bot.go, NewBot) -/

/-- The bot fields involved in the claims. -/
structure BotModel where
  updateWorkers : Int
  updateQueueCapacity : Int
deriving DecidableEq

/-- The update-worker sizing of `NewBot`: the CPU count clamped to the
range 2..10. -/
def clampUpdateWorkers (numCPU : Int) : Int :=
  let w := if numCPU < 2 then 2 else numCPU
  if w > 10 then 10 else w

/-- Model of `NewBot`'s queue arithmetic: the update queue capacity is
twice the clamped update worker count (`make(chan tgbotapi.Update,
updateQueueSize)`).  The Telegram API construction and the handler it
wraps are elided: they do not affect these two fields. -/
def NewBot (numCPU : Int) : BotModel :=
  let uw := clampUpdateWorkers numCPU
  { updateWorkers := uw, updateQueueCapacity := uw * 2 }

/-! ## Theorems -/

/-- Appending an element makes `contains` find it. -/
theorem contains_append_self (users : List Int) (uid : Int) :
    (users ++ [uid]).contains uid = true := by
  induction users with
  | nil => simp
  | cons u rest ih => simp_all

/-- Unfolding of `digitsRevAux` at zero. -/
theorem digitsRevAux_zero (f : Nat) : digitsRevAux f 0 = [] := by cases f <;> rfl

/-- The fuel of `digitsRevAux` is irrelevant once it covers the input. -/
theorem digitsRevAux_irrel (f : Nat) : ∀ g n : Nat, n ≤ f → n ≤ g →
    digitsRevAux f n = digitsRevAux g n := by
  induction f with
  | zero =>
    intro g n hf _
    have h0 : n = 0 := Nat.le_zero.mp hf
    subst h0
    rw [digitsRevAux_zero, digitsRevAux_zero]
  | succ f ih =>
    intro g n hf hg
    cases n with
    | zero => rw [digitsRevAux_zero, digitsRevAux_zero]
    | succ m =>
      cases g with
      | zero => omega
      | succ g2 =>
        simp only [digitsRevAux]
        congr 1
        have hdiv : (m + 1) / 10 < m + 1 :=
          Nat.div_lt_self (Nat.succ_pos m) (by norm_num)
        exact ih g2 ((m + 1) / 10) (by omega) (by omega)

/-- One unfolding step of `digitsRev`. -/
theorem digitsRev_succ (n : Nat) (h : n ≠ 0) :
    digitsRev n = n % 10 :: digitsRev (n / 10) := by
  cases n with
  | zero => exact absurd rfl h
  | succ m =>
    show digitsRevAux (m + 1) (m + 1)
      = (m + 1) % 10 :: digitsRevAux ((m + 1) / 10) ((m + 1) / 10)
    simp only [digitsRevAux]
    congr 1
    have hdiv : (m + 1) / 10 < m + 1 :=
      Nat.div_lt_self (Nat.succ_pos m) (by norm_num)
    exact digitsRevAux_irrel m ((m + 1) / 10) ((m + 1) / 10) (by omega) (by omega)

/-- Every decimal digit produced by `digitsRev` is below 10. -/
theorem digitsRev_lt_ten : ∀ n : Nat, ∀ d ∈ digitsRev n, d < 10 := by
  intro n
  induction n using Nat.strongRecOn with
  | ind n ih =>
    intro d hd
    by_cases h : n = 0
    · subst h
      exact absurd hd (by simp [digitsRev, digitsRevAux])
    · rw [digitsRev_succ n h] at hd
      rcases List.mem_cons.mp hd with h1 | h1
      · subst h1
        exact Nat.mod_lt n (by norm_num)
      · exact ih (n / 10) (Nat.div_lt_self (Nat.pos_of_ne_zero h) (by norm_num)) d h1

/-- `natVal` of a list with one digit appended. -/
theorem natVal_append (xs : List Nat) (d : Nat) :
    natVal (xs ++ [d]) = natVal xs * 10 + d := by
  unfold natVal
  rw [List.foldl_append]
  rfl

/-- `natVal` inverts `digitsRev`. -/
theorem natVal_digitsRev : ∀ n : Nat, natVal (digitsRev n).reverse = n := by
  intro n
  induction n using Nat.strongRecOn with
  | ind n ih =>
    by_cases h : n = 0
    · subst h
      rfl
    · rw [digitsRev_succ n h, List.reverse_cons, natVal_append,
        ih (n / 10) (Nat.div_lt_self (Nat.pos_of_ne_zero h) (by norm_num))]
      omega

/-- `digitVal` inverts `digitChar` on decimal digits. -/
theorem digitVal_digitChar : ∀ d, d < 10 → digitVal (digitChar d) = d := by decide

/-- `digitChar` produces digit characters. -/
theorem goIsDigit_digitChar : ∀ d, d < 10 → goIsDigit (digitChar d) = true := by
  decide

/-- A digit character is not whitespace. -/
theorem digit_not_space (c : Char) (h : goIsDigit c = true) :
    isSpaceGo c = false := by
  unfold goIsDigit at h
  rw [Bool.and_eq_true, decide_eq_true_eq, decide_eq_true_eq] at h
  obtain ⟨h1, _⟩ := h
  unfold isSpaceGo
  simp only [Bool.or_eq_false_iff, decide_eq_false_iff_not]
  refine ⟨⟨⟨⟨⟨?_, ?_⟩, ?_⟩, ?_⟩, ?_⟩, ?_⟩ <;> rintro rfl <;>
    exact absurd h1 (by decide)

/-- A digit character is none of the parser's marker characters. -/
theorem digit_ne_marks (c : Char) (h : goIsDigit c = true) :
    c ≠ '+' ∧ c ≠ '-' ∧ c ≠ '#' := by
  unfold goIsDigit at h
  rw [Bool.and_eq_true, decide_eq_true_eq, decide_eq_true_eq] at h
  obtain ⟨h1, _⟩ := h
  refine ⟨?_, ?_, ?_⟩ <;> rintro rfl <;> exact absurd h1 (by decide)

/-- Folding the parser's accumulator over digit characters computes the
digit-list value. -/
theorem foldl_digitChar : ∀ l : List Nat, (∀ d ∈ l, d < 10) → ∀ acc : Nat,
    List.foldl (fun acc c => acc * 10 + digitVal c) acc (l.map digitChar)
      = List.foldl (fun a d => a * 10 + d) acc l := by
  intro l
  induction l with
  | nil => intro _ _; rfl
  | cons d rest ih =>
    intro h acc
    simp only [List.map_cons, List.foldl_cons]
    rw [digitVal_digitChar d (h d (List.mem_cons_self d rest))]
    exact ih (fun x hx => h x (List.mem_cons_of_mem d hx)) (acc * 10 + d)

/-- Parsing the printed digits of `n` gives back `n`. -/
theorem digitsToNat_natReprL (n : Nat) : digitsToNat (natReprL n) = n := by
  unfold natReprL
  split_ifs with h
  · subst h
    rfl
  · unfold digitsToNat
    rw [foldl_digitChar (digitsRev n).reverse
      (fun d hd => digitsRev_lt_ten n d (List.mem_reverse.mp hd)) 0]
    exact natVal_digitsRev n

/-- The printed form of a natural number is never empty. -/
theorem natReprL_ne_nil (n : Nat) : natReprL n ≠ [] := by
  unfold natReprL
  split_ifs with h
  · simp
  · have hne : digitsRev n ≠ [] := by
      rw [digitsRev_succ n h]
      simp
    simp [hne]

/-- Every character of the printed form of a natural number is a digit. -/
theorem natReprL_digits (n : Nat) : ∀ c ∈ natReprL n, goIsDigit c = true := by
  intro c hc
  unfold natReprL at hc
  split_ifs at hc with h
  · rw [List.mem_singleton] at hc
    subst hc
    decide
  · obtain ⟨d, hd, rfl⟩ := List.mem_map.mp hc
    exact goIsDigit_digitChar d (digitsRev_lt_ten n d (List.mem_reverse.mp hd))

/-- `splitSign` leaves an all-digit list alone with positive sign. -/
theorem splitSign_digits (l : List Char) (hne : l ≠ [])
    (hd : ∀ c ∈ l, goIsDigit c = true) : splitSign l = (1, l) := by
  obtain ⟨c, rest, rfl⟩ := List.exists_cons_of_ne_nil hne
  obtain ⟨h1, h2, _⟩ := digit_ne_marks c (hd c (List.mem_cons_self c rest))
  unfold splitSign
  dsimp only
  rw [if_neg h1, if_neg h2]

/-- `goParseIntL` on a non-empty all-digit list returns its value when it
fits in a signed 64-bit integer. -/
theorem goParseIntL_digits (l : List Char) (hne : l ≠ [])
    (hd : ∀ c ∈ l, goIsDigit c = true)
    (hrange : (digitsToNat l : Int) ≤ 2 ^ 63 - 1) :
    goParseIntL l = some ((digitsToNat l : Int)) := by
  unfold goParseIntL
  dsimp only
  rw [splitSign_digits l hne hd]
  obtain ⟨c, rest, rfl⟩ := List.exists_cons_of_ne_nil hne
  have h1 : (c :: rest).isEmpty = false := rfl
  have h2 : (c :: rest).all goIsDigit = true := List.all_eq_true.mpr hd
  simp only [h1, h2, Bool.not_true, Bool.false_eq_true, if_false, one_mul]
  rw [if_neg (by rintro (h | h) <;> omega)]

/-- `goParseIntL` on a minus sign followed by digits returns the negated
value when it fits. -/
theorem goParseIntL_neg_digits (l : List Char) (hne : l ≠ [])
    (hd : ∀ c ∈ l, goIsDigit c = true)
    (hrange : -(2 ^ 63) ≤ -(digitsToNat l : Int)) :
    goParseIntL ('-' :: l) = some (-(digitsToNat l : Int)) := by
  unfold goParseIntL
  dsimp only
  rw [show splitSign ('-' :: l) = (-1, l) from rfl]
  obtain ⟨c, rest, rfl⟩ := List.exists_cons_of_ne_nil hne
  have h1 : (c :: rest).isEmpty = false := rfl
  have h2 : (c :: rest).all goIsDigit = true := List.all_eq_true.mpr hd
  simp only [h1, h2, Bool.not_true, Bool.false_eq_true, if_false, neg_mul,
    one_mul]
  rw [if_neg (by rintro (h | h) <;> omega)]

/-- Round trip: parsing the printed decimal form of a signed 64-bit
integer returns the integer. -/
theorem goParseIntL_intReprL (i : Int) (hlo : -(2 ^ 63) ≤ i)
    (hhi : i < 2 ^ 63) : goParseIntL (intReprL i) = some i := by
  unfold intReprL
  split_ifs with hneg
  · rw [goParseIntL_neg_digits (natReprL i.natAbs) (natReprL_ne_nil _)
      (natReprL_digits _) (by rw [digitsToNat_natReprL]; omega)]
    rw [digitsToNat_natReprL]
    congr 1
    omega
  · rw [goParseIntL_digits (natReprL i.natAbs) (natReprL_ne_nil _)
      (natReprL_digits _) (by rw [digitsToNat_natReprL]; omega)]
    rw [digitsToNat_natReprL]
    congr 1
    omega

/-- `dropWhile` does nothing when no element satisfies the predicate. -/
theorem dropWhile_id_of_false (p : Char → Bool) (l : List Char)
    (h : ∀ c ∈ l, p c = false) : l.dropWhile p = l := by
  cases l with
  | nil => rfl
  | cons c rest =>
    simp [List.dropWhile, h c (List.mem_cons_self c rest)]

/-- Trimming does nothing to a list without whitespace. -/
theorem goTrimSpaceL_id (l : List Char) (h : ∀ c ∈ l, isSpaceGo c = false) :
    goTrimSpaceL l = l := by
  unfold goTrimSpaceL
  rw [dropWhile_id_of_false isSpaceGo l h,
    dropWhile_id_of_false isSpaceGo l.reverse
      (fun c hc => h c (List.mem_reverse.mp hc)),
    List.reverse_reverse]

/-- The printed form of an integer contains no whitespace. -/
theorem intReprL_no_space (i : Int) :
    ∀ c ∈ intReprL i, isSpaceGo c = false := by
  intro c hc
  unfold intReprL at hc
  split_ifs at hc with h
  · rcases List.mem_cons.mp hc with rfl | hc2
    · decide
    · exact digit_not_space c (natReprL_digits _ c hc2)
  · exact digit_not_space c (natReprL_digits _ c hc)

/-- The printed form of an integer is never empty. -/
theorem intReprL_ne_nil (i : Int) : intReprL i ≠ [] := by
  unfold intReprL
  split_ifs with h
  · simp
  · exact natReprL_ne_nil _

/-- The printed form of an integer never starts with the comment mark. -/
theorem intReprL_not_hash (i : Int) :
    startsWithL (intReprL i) ['#'] = false := by
  unfold intReprL
  split_ifs with h
  · rfl
  · obtain ⟨c, rest, e⟩ := List.exists_cons_of_ne_nil (natReprL_ne_nil i.natAbs)
    rw [e]
    have hc : goIsDigit c = true := by
      apply natReprL_digits i.natAbs
      rw [e]
      exact List.mem_cons_self c rest
    obtain ⟨_, _, h3⟩ := digit_ne_marks c hc
    simp [startsWithL, h3]

/-- The allow-list loader accepts the exact line that the append wrote
for a signed 64-bit user id. -/
theorem parseLine_intRepr (i : Int) (hlo : -(2 ^ 63) ≤ i)
    (hhi : i < 2 ^ 63) : parseLine (intRepr i) = some i := by
  unfold parseLine intRepr
  dsimp only
  rw [show (String.mk (intReprL i)).toList = intReprL i from rfl]
  rw [goTrimSpaceL_id (intReprL i) (intReprL_no_space i)]
  rw [if_neg (intReprL_ne_nil i)]
  rw [if_neg (by simp [intReprL_not_hash i])]
  exact goParseIntL_intReprL i hlo hhi

/-- Inserting a user makes the membership check find it. -/
theorem contains_insertUser (users : List Int) (uid : Int) :
    (insertUser users uid).contains uid = true := by
  unfold insertUser
  split_ifs with h
  · exact h
  · exact contains_append_self users uid


/-- C1: the effective size ceiling is the configured ceiling clamped to
the 50 MB Telegram protocol maximum — the protocol maximum wins when the
configured value is non-positive or exceeds it and otherwise the minimum
of the two applies — and, for every request whose artifact was downloaded
and statted, the artifact is handed to the transport exactly when its
size does not exceed that ceiling; an oversized artifact ends in the
distinct size-violation outcome and is never handed to the transport. -/
theorem size_policy (h : Handler) (p : String) (size : Int)
    (sendOk : Bool) :
    (h.maxVideoSize ≤ 0 → maxAllowedFileSize h = telegramLimit) ∧
    (telegramLimit < h.maxVideoSize → maxAllowedFileSize h = telegramLimit) ∧
    (0 < h.maxVideoSize →
      maxAllowedFileSize h = min h.maxVideoSize telegramLimit) ∧
    ((processDownload h (some p) (some size) sendOk).videoSentToTransport
        = true ↔ size ≤ maxAllowedFileSize h) ∧
    (maxAllowedFileSize h < size →
      (processDownload h (some p) (some size) sendOk).outcome
          = ProcOutcome.sizeViolation ∧
      (processDownload h (some p) (some size) sendOk).videoSentToTransport
          = false) := by
  refine ⟨?_, ?_, ?_, ?_, ?_⟩
  · intro hle
    unfold maxAllowedFileSize
    rw [if_pos (Or.inl hle)]
  · intro hgt
    unfold maxAllowedFileSize
    rw [if_pos (Or.inr hgt)]
  · intro hpos
    unfold maxAllowedFileSize
    rw [min_def]
    split_ifs <;> omega
  · simp only [processDownload]
    split_ifs with hover hsend
    · simp
      omega
    · simp
      omega
    · simp
      omega
  · intro hover
    simp only [processDownload]
    rw [if_pos hover]
    exact ⟨rfl, rfl⟩

/-- C1 witness: with a configured ceiling of 50 MB (the Telegram protocol
maximum), a 49 MB artifact is handed to the transport and a 51 MB
artifact ends in the size-violation outcome without being sent. -/
theorem size_policy_witness :
    (processDownload (NewHandler 50 4) (some "/app/tmp/v.mp4")
      (some (49 * 1024 * 1024)) true).videoSentToTransport = true ∧
    (processDownload (NewHandler 50 4) (some "/app/tmp/v.mp4")
      (some (51 * 1024 * 1024)) true).outcome = ProcOutcome.sizeViolation ∧
    (processDownload (NewHandler 50 4) (some "/app/tmp/v.mp4")
      (some (51 * 1024 * 1024)) true).videoSentToTransport = false := by
  refine ⟨?_, ?_, ?_⟩
  · exact (size_policy (NewHandler 50 4) "/app/tmp/v.mp4"
      (49 * 1024 * 1024) true).2.2.2.1.mpr (by decide)
  · exact ((size_policy (NewHandler 50 4) "/app/tmp/v.mp4"
      (51 * 1024 * 1024) true).2.2.2.2 (by decide)).1
  · exact ((size_policy (NewHandler 50 4) "/app/tmp/v.mp4"
      (51 * 1024 * 1024) true).2.2.2.2 (by decide)).2

/-- C5: `TryAuthorize` is idempotent for a valid token when authorization
is enabled: the first call succeeds, and a second call with the same user
id and token also returns `true` while leaving the whole authorization
state — the approved set and the persisted allow-list lines included —
exactly as it was after the first call. -/
theorem tryAuthorize_idempotent (s : AuthState) (uid : Int) (tok : String)
    (hen : s.enabled = true) (htok : s.validTokens.contains tok = true) :
    (tryAuthorize s uid tok).1 = true ∧
    (tryAuthorize (tryAuthorize s uid tok).2 uid tok).1 = true ∧
    (tryAuthorize (tryAuthorize s uid tok).2 uid tok).2 =
      (tryAuthorize s uid tok).2 := by
  have htok' : tok ∈ s.validTokens := by simpa using htok
  by_cases huser : uid ∈ s.allowedUsers
  · have e1 : tryAuthorize s uid tok = (true, s) := by
      unfold tryAuthorize
      simp [hen, htok', huser]
    rw [e1]
    rw [e1]
    exact ⟨rfl, rfl, rfl⟩
  · have e1 : tryAuthorize s uid tok =
        (true,
          { s with
            allowedUsers := s.allowedUsers ++ [uid]
            fileLines :=
              Option.map (fun ls => ls ++ [intRepr uid]) s.fileLines }) := by
      unfold tryAuthorize
      simp [hen, htok', huser]
    have e2 : tryAuthorize (tryAuthorize s uid tok).2 uid tok =
        (true, (tryAuthorize s uid tok).2) := by
      rw [e1]
      unfold tryAuthorize
      simp [hen, htok']
    rw [e1] at e2 ⊢
    rw [e2]
    exact ⟨rfl, rfl, rfl⟩

/-- C5 witness: a concrete first authorization followed by a second one
with the same valid token. -/
theorem tryAuthorize_idempotent_witness :
    (tryAuthorize ⟨true, ["secret"], [], some []⟩ 42 "secret").1 = true ∧
    (tryAuthorize (tryAuthorize ⟨true, ["secret"], [], some []⟩ 42 "secret").2
      42 "secret").1 = true ∧
    (tryAuthorize (tryAuthorize ⟨true, ["secret"], [], some []⟩ 42 "secret").2
      42 "secret").2 =
      (tryAuthorize ⟨true, ["secret"], [], some []⟩ 42 "secret").2 :=
  tryAuthorize_idempotent ⟨true, ["secret"], [], some []⟩ 42 "secret" rfl
    (by decide)

/-- C6: with authorization enabled, presenting a token outside the static
valid set returns `false` and leaves the authorization state — approved
set, token set and persisted allow-list — completely unchanged. -/
theorem tryAuthorize_invalid_token (s : AuthState) (uid : Int) (tok : String)
    (hen : s.enabled = true) (htok : s.validTokens.contains tok = false) :
    tryAuthorize s uid tok = (false, s) := by
  have htok' : tok ∉ s.validTokens := by simpa using htok
  unfold tryAuthorize
  simp [hen, htok']

/-- C6 witness: a concrete rejection with a wrong token leaves the state
untouched. -/
theorem tryAuthorize_invalid_token_witness :
    tryAuthorize ⟨true, ["secret"], [7], some ["7"]⟩ 42 "wrong" =
      (false, ⟨true, ["secret"], [7], some ["7"]⟩) :=
  tryAuthorize_invalid_token ⟨true, ["secret"], [7], some ["7"]⟩ 42 "wrong"
    rfl (by decide)

/-- C7: round trip of the allow-list persistence — for every signed
64-bit user id appended by a successful authorization (one decimal
integer per line), constructing a new authorization service over the
resulting file loads that id into the approved set, so `IsAuthorized`
returns `true` for it without a token; and every line that is blank,
starts with `#`, or fails integer parsing is skipped by the (total,
never-failing) load. -/
theorem allowlist_roundtrip (uid : Int) (pre : List String)
    (toks : List String) (hlo : -(2 ^ 63) ≤ uid) (hhi : uid < 2 ^ 63) :
    isAuthorized (mkService true toks (some (pre ++ [intRepr uid]))) uid
      = true ∧
    (∀ (line : String) (rest : List String),
      goTrimSpaceL line.toList = [] ∨
      startsWithL (goTrimSpaceL line.toList) ['#'] = true ∨
      goParseIntL (goTrimSpaceL line.toList) = none →
      loadAllowedUsers (line :: rest) = loadAllowedUsers rest) := by
  constructor
  · show (loadAllowedUsers (pre ++ [intRepr uid])).contains uid = true
    unfold loadAllowedUsers
    rw [List.foldl_append]
    simp only [List.foldl_cons, List.foldl_nil]
    rw [parseLine_intRepr uid hlo hhi]
    exact contains_insertUser _ uid
  · intro line rest hskip
    have hnone : parseLine line = none := by
      unfold parseLine
      dsimp only
      split_ifs with h1 h2
      · rfl
      · rfl
      · rcases hskip with h | h | h
        · exact absurd h h1
        · exact absurd h h2
        · exact h
    unfold loadAllowedUsers
    simp only [List.foldl_cons]
    rw [hnone]

/-- C7 witness: user id 42 appended after comment, blank and malformed
lines is recognized as authorized by a freshly constructed service, and a
comment line is skipped by the load. -/
theorem allowlist_roundtrip_witness :
    isAuthorized (mkService true ["secret"]
      (some (["# admins", "", "abc"] ++ [intRepr 42]))) 42 = true ∧
    loadAllowedUsers ("# admins" :: ["7"]) = loadAllowedUsers ["7"] := by
  constructor
  · exact (allowlist_roundtrip 42 ["# admins", "", "abc"] ["secret"]
      (by decide) (by decide)).1
  · exact (allowlist_roundtrip 42 ["# admins", "", "abc"] ["secret"]
      (by decide) (by decide)).2 "# admins" ["7"]
      (Or.inr (Or.inl (by decide)))

/-- Lowering an already-lowered character changes nothing. -/
theorem goLowerChar_idem (c : Char) :
    goLowerChar (goLowerChar c) = goLowerChar c := by
  by_cases h : 65 ≤ c.toNat ∧ c.toNat ≤ 90
  · have e : goLowerChar c = Char.ofNat (c.toNat + 32) := by
      unfold goLowerChar
      rw [if_pos h]
    rw [e]
    obtain ⟨h1, h2⟩ := h
    generalize c.toNat = m at h1 h2 ⊢
    interval_cases m <;> decide
  · have e : goLowerChar c = c := by
      unfold goLowerChar
      rw [if_neg h]
    rw [e, e]

/-- Lowering a string twice is the same as lowering it once. -/
theorem goToLower_idem (s : String) : goToLower (goToLower s) = goToLower s := by
  unfold goToLower
  rw [show (String.mk (s.toList.map goLowerChar)).toList
        = s.toList.map goLowerChar from rfl]
  rw [List.map_map]
  congr 1
  apply List.map_congr_left
  intro c _
  exact goLowerChar_idem c

/-- C8: routing is a case-insensitive substring match over the domain
markers in the fixed priority order YouTube, TikTok, Instagram with first
match winning: the spec's four example URLs route to YouTube, TikTok,
Instagram and none respectively; routing is insensitive to the input's
case; and each platform is chosen exactly when its marker matches the
lowered URL and no earlier platform's marker does. -/
theorem routing (url : String) :
    getDownloader "https://youtu.be/abc" = ("youtube", some Platform.youtube) ∧
    getDownloader "https://www.tiktok.com/@x/video/1"
      = ("tiktok", some Platform.tiktok) ∧
    getDownloader "https://instagram.com/reel/y"
      = ("instagram", some Platform.instagram) ∧
    getDownloader "https://example.com/video" = ("unknown", none) ∧
    getDownloader (goToLower url) = getDownloader url ∧
    ((getDownloader url).2 = some Platform.youtube ↔
      ytIsValidURL (goToLower url) = true) ∧
    ((getDownloader url).2 = some Platform.tiktok ↔
      ytIsValidURL (goToLower url) = false ∧
      tiktokIsValidURL (goToLower url) = true) ∧
    ((getDownloader url).2 = some Platform.instagram ↔
      ytIsValidURL (goToLower url) = false ∧
      tiktokIsValidURL (goToLower url) = false ∧
      instagramIsValidURL (goToLower url) = true) ∧
    ((getDownloader url).2 = none ↔
      ytIsValidURL (goToLower url) = false ∧
      tiktokIsValidURL (goToLower url) = false ∧
      instagramIsValidURL (goToLower url) = false) := by
  refine ⟨by decide, by decide, by decide, by decide, ?_, ?_, ?_, ?_, ?_⟩
  · unfold getDownloader
    rw [goToLower_idem]
  · unfold getDownloader
    dsimp only
    split_ifs <;> simp_all
  · unfold getDownloader
    dsimp only
    split_ifs <;> simp_all
  · unfold getDownloader
    dsimp only
    split_ifs <;> simp_all
  · unfold getDownloader
    dsimp only
    split_ifs <;> simp_all

/-- C2: the claim says a panic inside one request's processing is caught,
logged, and the worker resumes pulling the next request, never
terminating.  Evaluating the worker-loop embedding on a queue holding a
panicking request followed by a normal one shows the code recovers and
logs the panic but the worker goroutine exits without processing the
second request, while the claimed per-request boundary would process it
and keep the worker alive. -/
theorem worker_panic_terminates_worker :
    runWorker [ReqBehavior.panics, ReqBehavior.normal] =
      { completed := 0, panicLogged := true, exitedEarly := true } ∧
    runWorkerPerRequestBoundary [ReqBehavior.panics, ReqBehavior.normal] =
      { completed := 1, panicLogged := true, exitedEarly := false } :=
  ⟨rfl, rfl⟩

/-- C3: the claim says `Cleanup` removes a file only when it is a
descendant of the temp directory and errors on every other path.
Evaluating the embedding with temp directory `/tmp/dl` on the sibling
path `/tmp/dlevil/video.mp4` shows the string-prefix check passes and the
file is removed although it is not a descendant of the temp directory. -/
theorem cleanup_removes_non_descendant :
    cleanup "/home/user" "/tmp/dl" "/tmp/dlevil/video.mp4" =
      CleanupResult.removed "/tmp/dlevil/video.mp4" ∧
    isDescendantOfTempDir "/home/user" "/tmp/dl" "/tmp/dlevil/video.mp4" =
      false :=
  ⟨by decide, by decide⟩

/-- C4: enqueueing is the non-blocking try-send — it accepts exactly when
the bounded queue has spare capacity, appending the request; when the
queue is full it rejects at once leaving the queue unchanged, and the
caller then cancels the request's cancellation scope and notifies the
user via the overflow handler. -/
theorem enqueue_nonblocking (pending : List Nat) (cap r : Nat) :
    ((enqueueDownload ⟨pending, cap⟩ r).1 = true ↔ pending.length < cap) ∧
    submitDownload ⟨pending, cap⟩ r =
      (if pending.length < cap then
        ⟨true, ⟨pending ++ [r], cap⟩, false, false⟩
      else ⟨false, ⟨pending, cap⟩, true, true⟩) := by
  unfold submitDownload enqueueDownload
  by_cases h : pending.length < cap <;> simp [h]

/-- C9: for every configuration, the download queue capacity is twice the
(effective) download worker-pool size, and the update queue capacity is
twice the update worker count. -/
theorem queue_capacity_twice_workers (mb wc numCPU : Int) :
    (NewHandler mb wc).downloadQueueCapacity =
      2 * (NewHandler mb wc).workerCount ∧
    (NewBot numCPU).updateQueueCapacity = 2 * (NewBot numCPU).updateWorkers := by
  constructor
  · unfold NewHandler
    split_ifs <;> ring
  · unfold NewBot clampUpdateWorkers
    split_ifs <;> ring

/-- C10: the handler constructor replaces a non-positive worker count by
1 and keeps a positive one unchanged, so the pool size is at least 1 and
the queue capacity at least 2. -/
theorem worker_count_floor (mb wc : Int) :
    ((NewHandler mb wc).workerCount = if wc ≤ 0 then 1 else wc) ∧
    1 ≤ (NewHandler mb wc).workerCount ∧
    2 ≤ (NewHandler mb wc).downloadQueueCapacity := by
  unfold NewHandler
  split_ifs with h
  · simp
  · simp
    omega

end ReelserBot
